import Mathlib

/-!
Verification development for the ts-rest-client repository: a shallow
embedding of the runtime resource-node engine (path composer, parameter
normalizer, resource nodes, transport adapter boundary) together with
proofs of the behavioural properties stated in the specification.

The repository snapshot contains the test suite (src/specs/test.spec.ts)
and the typed interface (src/interfaces/EntityApi.ts); the production
modules (index.ts, HttpClient.ts, RESTEntity.ts and the spec utilities)
are absent, so the engine below is modelled from the specification text,
with the observable behaviour cross-checked against the in-repo tests.
-/

namespace RestClient

/-- HTTP verb of one outgoing request: the four verbs of the Transport
Adapter contract (list/read via GET, create via POST, update via PUT,
delete via DELETE). -/
inductive Verb where
  | GET
  | POST
  | PUT
  | DELETE
  deriving DecidableEq, Repr

/-- Model of a plain JS object (body, query object, headers map): an
association list from field names to values. -/
abbrev Obj := List (String × String)

/-- The empty JS object. -/
def emptyObj : Obj := []

/-- Request Descriptor: transient value describing one outgoing call.
`none` in `body`, `query` or `headers` is the explicit "absent" marker
produced by the Parameter Normalizer for an omitted optional argument,
observably distinct from `some emptyObj`. -/
structure Req where
  verb : Verb
  path : String
  body : Option Obj
  query : Option Obj
  headers : Option Obj
  deriving DecidableEq, Repr

/-- Modelled from the spec: the Transport Adapter contract of the
external HttpClient interface (HttpClient.ts is not in the repository
snapshot). Four asynchronous verb operations; `π` is the ResponseTuple
value a call resolves with, `ε` the rejection value. `Except` stands for
the settled promise: `Except.ok` a resolution, `Except.error` a
rejection. -/
structure HttpClient (π ε : Type) where
  get : String → Option Obj → Option Obj → Except ε π
  post : String → Obj → Option Obj → Option Obj → Except ε π
  put : String → Obj → Option Obj → Option Obj → Except ε π
  delete : String → Option Obj → Option Obj → Except ε π

/-- Operating mode of a Resource Node. -/
inductive Mode where
  | collection
  | single
  deriving DecidableEq, Repr

/-- Resource Node: an immutable point in the nested-resource path tree,
carrying the accumulated base path and the operating mode. -/
structure Node where
  basePath : String
  mode : Mode
  deriving DecidableEq, Repr

/-- Does the string end with a slash character? Used by the path
composer to avoid duplicate separators. -/
def lastIsSlash (s : String) : Bool :=
  match s.data.getLast? with
  | some c => c == '/'
  | none => false

/-- Modelled from the spec: the Path Composer step (the production
module holding it is not in the repository snapshot). Appends one path
component to an accumulated path, joining with a single slash and
guaranteeing no duplicate separators: an empty component is skipped, an
empty accumulator is replaced by the component, and no extra slash is
inserted after a trailing slash. -/
def appendSeg (base c : String) : String :=
  if c = "" then base
  else if base = "" then c
  else if lastIsSlash base then base ++ c
  else base ++ "/" ++ c

/-- The plain left-to-right slash join of the specification text: the
base followed by each component with exactly one slash in between. -/
def slashJoin (base : String) (comps : List String) : String :=
  comps.foldl (fun acc c => acc ++ "/" ++ c) base

/-- Usage errors, raised synchronously before any I/O. -/
inductive UsageError where
  | emptyIdentifier
  deriving DecidableEq, Repr

/-- Modelled from the spec: the instance-selection operation (named
`for` in the source, a keyword here; index.ts is not in the repository
snapshot). Takes the composite identifier parts, requires at least one,
and on success moves to Single mode at the extended path. The first
component of the result is the list of Transport Adapter requests made
by the operation itself: always empty, because selection performs no
I/O, and on zero parts it fails synchronously as a usage error. -/
def Node.forIds (n : Node) (ids : List String) : List Req × Except UsageError Node :=
  ([],
    match ids with
    | [] => Except.error UsageError.emptyIdentifier
    | _ :: _ => Except.ok { basePath := ids.foldl appendSeg n.basePath, mode := Mode.single })

/-- Modelled from the spec: the dynamic child-collection rule. Accessing
an unreserved name allocates a new immutable Collection-mode node one
path segment deeper. -/
def Node.child (n : Node) (name : String) : Node :=
  { basePath := appendSeg n.basePath name, mode := Mode.collection }

/-- Reserved operation names of each mode: getAll, create and `for` in
Collection mode; get, update and delete in Single mode. -/
def reservedNames : Mode → List String
  | Mode.collection => ["getAll", "create", "for"]
  | Mode.single => ["get", "update", "delete"]

/-- Modelled from the spec: the object-protocol and introspection member
names on which the dynamic child rule must not trigger — the
promise-like check and the string-conversion probe. -/
def protocolNames : List String := ["then", "toString"]

/-- Outcome of resolving one property name on a Resource Node. -/
inductive Lookup where
  | reservedOp (name : String)
  | notMember
  | childNode (n : Node)
  deriving DecidableEq, Repr

/-- Modelled from the spec: total resolution order for a property access
on a node. Reserved names of the current mode are checked first, then
protocol-reserved names behave as no such property, and every other name
falls through to the dynamic child-collection rule. The first component
is the list of Transport Adapter requests made by the access itself:
always empty, because navigation performs no network call. -/
def Node.resolve (n : Node) (name : String) : List Req × Lookup :=
  ([],
    if name ∈ reservedNames n.mode then Lookup.reservedOp name
    else if name ∈ protocolNames then Lookup.notMember
    else Lookup.childNode (n.child name))

/-- Navigation chain alternating instance selection and child-name
access: from `n`, apply `forIds [i]` then resolve `nm` as a child, for
each pair `(i, nm)` in order. Returns `none` when a step fails or does
not resolve to a child node. -/
def navChain (n : Node) : List (String × String) → Option Node
  | [] => some n
  | (i, nm) :: rest =>
    match (n.forIds [i]).2 with
    | Except.error _ => none
    | Except.ok s =>
      match (s.resolve nm).2 with
      | Lookup.childNode c => navChain c rest
      | _ => none

/-- The path the specification text predicts for an alternating
navigation chain: root/i1/name1/i2/name2/.../id/named, with a single
slash between consecutive components. -/
def expectedPath (root : String) (pairs : List (String × String)) : String :=
  pairs.foldl (fun acc p => acc ++ "/" ++ p.1 ++ "/" ++ p.2) root

/-- Well-formedness of one navigation pair: identifier and child name
are nonempty, neither ends in a slash, and the name is a genuine child
name in Single mode (neither a reserved operation nor a
protocol-reserved member). -/
abbrev goodPair (p : String × String) : Prop :=
  p.1 ≠ "" ∧ lastIsSlash p.1 = false ∧ p.2 ≠ "" ∧ lastIsSlash p.2 = false
    ∧ p.2 ∉ reservedNames Mode.single ∧ p.2 ∉ protocolNames

/-- Modelled from the spec: the getAll verb of Collection mode. Issues
exactly one GET at the basePath and resolves with the Transport Adapter
response passed through untouched. The first component records the
requests issued. -/
def Node.getAll {π ε : Type} (n : Node) (t : HttpClient π ε)
    (q h : Option Obj) : List Req × Except ε π :=
  ([{ verb := Verb.GET, path := n.basePath, body := none, query := q, headers := h }],
    t.get n.basePath q h)

/-- Modelled from the spec: the get verb of Single mode. Issues exactly
one GET at the basePath. -/
def Node.get {π ε : Type} (n : Node) (t : HttpClient π ε)
    (q h : Option Obj) : List Req × Except ε π :=
  ([{ verb := Verb.GET, path := n.basePath, body := none, query := q, headers := h }],
    t.get n.basePath q h)

/-- Modelled from the spec: the create verb of Collection mode. Issues
exactly one POST at the basePath carrying the supplied body. -/
def Node.create {π ε : Type} (n : Node) (t : HttpClient π ε)
    (b : Obj) (q h : Option Obj) : List Req × Except ε π :=
  ([{ verb := Verb.POST, path := n.basePath, body := some b, query := q, headers := h }],
    t.post n.basePath b q h)

/-- Modelled from the spec: the update verb of Single mode. Issues
exactly one PUT at the basePath carrying the supplied body. -/
def Node.update {π ε : Type} (n : Node) (t : HttpClient π ε)
    (b : Obj) (q h : Option Obj) : List Req × Except ε π :=
  ([{ verb := Verb.PUT, path := n.basePath, body := some b, query := q, headers := h }],
    t.put n.basePath b q h)

/-- Modelled from the spec: the delete verb of Single mode. Issues
exactly one DELETE at the basePath. -/
def Node.delete {π ε : Type} (n : Node) (t : HttpClient π ε)
    (q h : Option Obj) : List Req × Except ε π :=
  ([{ verb := Verb.DELETE, path := n.basePath, body := none, query := q, headers := h }],
    t.delete n.basePath q h)

/-- Modelled from the spec: the Parameter Normalizer for the non-body
verbs (getAll, get, delete). The call-site argument list carries the
supplied trailing optional arguments (query, then headers); omitted
positions are padded with the explicit absent marker `none`. Argument
lists beyond the maximum arity are not a valid call shape. -/
def normalizeNoBody (args : List Obj) : Option (Option Obj × Option Obj) :=
  match args with
  | [] => some (none, none)
  | [q] => some (some q, none)
  | [q, h] => some (some q, some h)
  | _ => none

/-- Modelled from the spec: the Parameter Normalizer for the
body-carrying verbs (create, update). The body is mandatory; query and
headers may be omitted from the tail and are padded with `none`. -/
def normalizeWithBody (args : List Obj) : Option (Obj × Option Obj × Option Obj) :=
  match args with
  | [b] => some (b, none, none)
  | [b, q] => some (b, some q, none)
  | [b, q, h] => some (b, some q, some h)
  | _ => none

/-- Maximum call arity of a non-body verb (query, headers). -/
def maxArityNoBody : Nat := 2

/-- Maximum call arity of a body-carrying verb (body, query, headers). -/
def maxArityWithBody : Nat := 3

/-- Variadic entry point of getAll: normalize the argument list, then
dispatch. `none` models the invalid call shape rejected at the type
level in the source. -/
def Node.getAllArgs {π ε : Type} (n : Node) (t : HttpClient π ε)
    (args : List Obj) : Option (List Req × Except ε π) :=
  (normalizeNoBody args).map fun p => n.getAll t p.1 p.2

/-- Variadic entry point of get. -/
def Node.getArgs {π ε : Type} (n : Node) (t : HttpClient π ε)
    (args : List Obj) : Option (List Req × Except ε π) :=
  (normalizeNoBody args).map fun p => n.get t p.1 p.2

/-- Variadic entry point of delete. -/
def Node.deleteArgs {π ε : Type} (n : Node) (t : HttpClient π ε)
    (args : List Obj) : Option (List Req × Except ε π) :=
  (normalizeNoBody args).map fun p => n.delete t p.1 p.2

/-- Variadic entry point of create. -/
def Node.createArgs {π ε : Type} (n : Node) (t : HttpClient π ε)
    (args : List Obj) : Option (List Req × Except ε π) :=
  (normalizeWithBody args).map fun p => n.create t p.1 p.2.1 p.2.2

/-- Variadic entry point of update. -/
def Node.updateArgs {π ε : Type} (n : Node) (t : HttpClient π ε)
    (args : List Obj) : Option (List Req × Except ε π) :=
  (normalizeWithBody args).map fun p => n.update t p.1 p.2.1 p.2.2

/-- The root Collection-mode node at a root path. -/
def rootNode (rootPath : String) : Node :=
  { basePath := rootPath, mode := Mode.collection }

/-- Modelled from the spec: the Client Factory value returned by `init`
(index.ts is not in the repository snapshot). It owns the Transport
Adapter reference and the root path. -/
structure Factory (π ε : Type) where
  httpClient : HttpClient π ε
  rootPath : String

/-- Modelled from the spec: the single entry point. Binds a Transport
Adapter and a root path. -/
def init {π ε : Type} (httpClient : HttpClient π ε) (rootPath : String) :
    Factory π ε :=
  { httpClient := httpClient, rootPath := rootPath }

/-- Modelled from the spec: createClient returns a fresh Collection-mode
Resource Node rooted at the factory root path. -/
def Factory.createClient {π ε : Type} (f : Factory π ε) : Node :=
  rootNode f.rootPath

/-- Value universe for ResponseTuples in concrete scenarios: an opaque
payload atom, an echo of a request descriptor (the shape the mock
HttpClient of src/specs/test.spec.ts resolves with), or a JS array. A
ResponseTuple is an `arr`; its elements are the payload followed by
opaque transport metadata. -/
inductive RespVal where
  | atom : Nat → RespVal
  | reqEcho : Verb → String → Option Obj → Option Obj → Option Obj → RespVal
  | arr : List RespVal → RespVal

/-- First element of a ResponseTuple value, when it is a nonempty
array. -/
def respFirst : RespVal → Option RespVal
  | RespVal.arr (x :: _) => some x
  | _ => none

/-- Embedding of the mock HttpClient of src/specs/test.spec.ts: every
verb resolves with a one-element ResponseTuple whose single element
echoes the normalized request. -/
def mockHttpClient : HttpClient RespVal RespVal where
  get := fun p q h => Except.ok (RespVal.arr [RespVal.reqEcho Verb.GET p none q h])
  post := fun p b q h => Except.ok (RespVal.arr [RespVal.reqEcho Verb.POST p (some b) q h])
  put := fun p b q h => Except.ok (RespVal.arr [RespVal.reqEcho Verb.PUT p (some b) q h])
  delete := fun p q h => Except.ok (RespVal.arr [RespVal.reqEcho Verb.DELETE p none q h])

/-- An always-rejecting Transport Adapter, used to exercise rejection
pass-through at a concrete input. -/
def errClient (e : Nat) : HttpClient RespVal Nat where
  get := fun _ _ _ => Except.error e
  post := fun _ _ _ _ => Except.error e
  put := fun _ _ _ _ => Except.error e
  delete := fun _ _ _ => Except.error e

/-- Modelled from the spec: the operation-name set of the
GeneralEntityApi type (EntityApiTypes.ts is not in the repository
snapshot): the Collection-mode general operations. -/
def generalEntityApiKeys : List String := ["getAll", "create"]

/-- Modelled from the spec: the operation-name set of the
SingleEntityApi type (EntityApiTypes.ts is not in the repository
snapshot): the Single-mode operations. -/
def singleEntityApiKeys : List String := ["get", "update", "delete"]

/-- Modelled from the spec: the full operation-name set of the
AllEntityApi type. -/
def allEntityApiKeys : List String := generalEntityApiKeys ++ singleEntityApiKeys

/-- From src/interfaces/EntityApi.ts: the property names exposed by the
EntityApi type for a selection of operations — the selected keys
restricted to the general operations, plus `for`. Sub-entity accessors
do not appear here. -/
def entityApiKeys (selectedKeys : List String) : List String :=
  selectedKeys.filter (fun k => decide (k ∈ generalEntityApiKeys)) ++ ["for"]

/-- From src/interfaces/EntityApi.ts: the property names exposed by the
value returned by `for` — the selected keys restricted to the
single-item operations, plus the sub-entity collection accessors. -/
def forReturnKeys (selectedKeys subEntityKeys : List String) : List String :=
  selectedKeys.filter (fun k => decide (k ∈ singleEntityApiKeys)) ++ subEntityKeys

/-- A string is empty exactly when its character list is empty. -/
theorem strEmpty_iff (s : String) : s = "" ↔ s.data = [] := by
  constructor
  · intro h
    subst h
    rfl
  · intro h
    apply String.ext
    rw [h]

/-- Appending a nonempty string on the right determines the final
character. -/
theorem lastIsSlash_append (s c : String) (hc : c ≠ "") :
    lastIsSlash (s ++ c) = lastIsSlash c := by
  have hd : c.data ≠ [] := fun h => hc ((strEmpty_iff c).mpr h)
  unfold lastIsSlash
  rw [String.data_append, List.getLast?_append_of_ne_nil _ hd]

/-- A slash-joined string is never empty. -/
theorem appendSlash_ne_empty (base c : String) : base ++ "/" ++ c ≠ "" := by
  intro h
  have h2 : (base ++ "/" ++ c).data = [] := (strEmpty_iff _).mp h
  rw [String.data_append, String.data_append] at h2
  have hs : ("/" : String).data = ['/'] := rfl
  rw [hs] at h2
  simp at h2

/-- On a nonempty accumulator without a trailing slash and a nonempty
component, the composer step is the plain slash join. -/
theorem appendSeg_eq (base c : String) (hb : base ≠ "")
    (hb2 : lastIsSlash base = false) (hc : c ≠ "") :
    appendSeg base c = base ++ "/" ++ c := by
  simp [appendSeg, hb, hb2, hc]

/-- Folding the composer over well-formed components agrees with the
plain left-to-right slash join, and preserves nonemptiness and the
absence of a trailing slash. -/
theorem foldl_appendSeg (comps : List String) (base : String)
    (hb : base ≠ "") (hb2 : lastIsSlash base = false)
    (hc : ∀ c ∈ comps, c ≠ "" ∧ lastIsSlash c = false) :
    comps.foldl appendSeg base = slashJoin base comps
    ∧ comps.foldl appendSeg base ≠ ""
    ∧ lastIsSlash (comps.foldl appendSeg base) = false := by
  induction comps generalizing base with
  | nil => exact ⟨rfl, hb, hb2⟩
  | cons c cs ih =>
    obtain ⟨hc1, hc2⟩ := hc c (List.mem_cons_self c cs)
    have heq := appendSeg_eq base c hb hb2 hc1
    have hne : appendSeg base c ≠ "" := by
      rw [heq]
      exact appendSlash_ne_empty base c
    have hsl : lastIsSlash (appendSeg base c) = false := by
      rw [heq, lastIsSlash_append _ c hc1]
      exact hc2
    have hrest : ∀ d ∈ cs, d ≠ "" ∧ lastIsSlash d = false :=
      fun d hd => hc d (List.mem_cons_of_mem c hd)
    have h := ih (appendSeg base c) hne hsl hrest
    refine ⟨?_, h.2.1, h.2.2⟩
    rw [List.foldl_cons, h.1]
    simp only [slashJoin, List.foldl_cons, heq]

/-- An alternating for/child navigation chain from a Collection-mode
node lands on a Collection-mode node whose basePath is the plain
left-to-right slash join predicted by the specification. -/
theorem navChain_path : ∀ (pairs : List (String × String)) (n : Node),
    n.mode = Mode.collection → n.basePath ≠ "" → lastIsSlash n.basePath = false →
    (∀ p ∈ pairs, goodPair p) →
    navChain n pairs
      = some { basePath := expectedPath n.basePath pairs, mode := Mode.collection }
  | [], n, hm, _, _, _ => by
    obtain ⟨bp, md⟩ := n
    have h3 : md = Mode.collection := hm
    subst h3
    rfl
  | (i, nm) :: ps, n, _, hb, hb2, hp => by
    obtain ⟨hi1, hi2, hn1, hn2, hres, hprot⟩ := hp (i, nm) (List.mem_cons_self _ _)
    have heq1 : appendSeg n.basePath i = n.basePath ++ "/" ++ i :=
      appendSeg_eq _ _ hb hb2 hi1
    have hb' : appendSeg n.basePath i ≠ "" := by
      rw [heq1]
      exact appendSlash_ne_empty _ _
    have hb2' : lastIsSlash (appendSeg n.basePath i) = false := by
      rw [heq1, lastIsSlash_append _ _ hi1]
      exact hi2
    have heq2 : appendSeg (appendSeg n.basePath i) nm
        = appendSeg n.basePath i ++ "/" ++ nm :=
      appendSeg_eq _ _ hb' hb2' hn1
    have hcb : appendSeg (appendSeg n.basePath i) nm ≠ "" := by
      rw [heq2]
      exact appendSlash_ne_empty _ _
    have hcb2 : lastIsSlash (appendSeg (appendSeg n.basePath i) nm) = false := by
      rw [heq2, lastIsSlash_append _ _ hn1]
      exact hn2
    have hrec := navChain_path ps
      (Node.mk (appendSeg (appendSeg n.basePath i) nm) Mode.collection) rfl hcb hcb2
      (fun p hp' => hp p (List.mem_cons_of_mem _ hp'))
    have hstep : navChain n ((i, nm) :: ps)
        = navChain (Node.mk (appendSeg (appendSeg n.basePath i) nm) Mode.collection) ps := by
      dsimp only [navChain, Node.forIds, Node.resolve, Node.child, List.foldl]
      rw [if_neg hres, if_neg hprot]
    rw [hstep, hrec, heq2, heq1]
    exact rfl

/-- The non-body normalizer accepts exactly the argument lists of length
at most two. -/
theorem normalizeNoBody_isSome (args : List Obj) :
    (normalizeNoBody args).isSome ↔ args.length ≤ maxArityNoBody := by
  rcases args with _ | ⟨a, _ | ⟨b, _ | ⟨c, rest⟩⟩⟩ <;>
    simp [normalizeNoBody, maxArityNoBody]

/-- The body-carrying normalizer accepts exactly the argument lists of
length between one and three. -/
theorem normalizeWithBody_isSome (args : List Obj) :
    (normalizeWithBody args).isSome ↔ 1 ≤ args.length ∧ args.length ≤ maxArityWithBody := by
  rcases args with _ | ⟨a, _ | ⟨b, _ | ⟨c, _ | ⟨d, rest⟩⟩⟩⟩ <;>
    simp [normalizeWithBody, maxArityWithBody]

/-- C1: for every nesting depth d and every alternating chain of
identifiers and child names from the root, navigation succeeds and the
request issued by a terminal CRUD call on the reached node has path
root/i1/name1/i2/name2/.../id/named, with the components in that
left-to-right order and a single slash between consecutive components.
The hypotheses require the root and all components to be nonempty
without trailing slash, and the names to be genuine child names. -/
theorem c1_alternating_navigation_path (root : String)
    (pairs : List (String × String)) {π ε : Type} (t : HttpClient π ε)
    (q h : Option Obj)
    (hb : root ≠ "") (hb2 : lastIsSlash root = false)
    (hp : ∀ p ∈ pairs, goodPair p) :
    navChain (rootNode root) pairs
      = some { basePath := expectedPath root pairs, mode := Mode.collection }
    ∧ (Node.getAll { basePath := expectedPath root pairs, mode := Mode.collection }
        t q h).1
      = [{ verb := Verb.GET, path := expectedPath root pairs, body := none,
           query := q, headers := h }] :=
  ⟨navChain_path pairs (rootNode root) rfl hb hb2 hp, rfl⟩

/-- C1 witness: the level-2 scenario of the test suite, at root /api
with identifiers id-0, id-1 and child names nest1, nest2. -/
theorem c1_witness :
    navChain (rootNode "/api") [("id-0", "nest1"), ("id-1", "nest2")]
      = some { basePath := "/api/id-0/nest1/id-1/nest2", mode := Mode.collection }
    ∧ (Node.getAll { basePath := "/api/id-0/nest1/id-1/nest2", mode := Mode.collection }
        mockHttpClient none none).1
      = [{ verb := Verb.GET, path := "/api/id-0/nest1/id-1/nest2", body := none,
           query := none, headers := none }] := by
  have h := c1_alternating_navigation_path "/api" [("id-0", "nest1"), ("id-1", "nest2")]
    mockHttpClient none none (by decide) (by decide) (by decide)
  have hpath : expectedPath "/api" [("id-0", "nest1"), ("id-1", "nest2")]
      = "/api/id-0/nest1/id-1/nest2" := by decide
  rw [hpath] at h
  exact h

/-- C2 counterexample: at root /api with the test-suite mock adapter,
getAll resolves with the entire one-element ResponseTuple, not with its
first element — as the deep-nesting tests require when they inspect
element 0 of the resolved value. -/
theorem c2_counterexample :
    ((rootNode "/api").getAll mockHttpClient none none).2
      = Except.ok (RespVal.arr [RespVal.reqEcho Verb.GET "/api" none none none])
    ∧ respFirst (RespVal.arr [RespVal.reqEcho Verb.GET "/api" none none none])
      = some (RespVal.reqEcho Verb.GET "/api" none none none)
    ∧ ((rootNode "/api").getAll mockHttpClient none none).2
      ≠ Except.ok (RespVal.reqEcho Verb.GET "/api" none none none) := by
  refine ⟨rfl, rfl, fun hcontra => ?_⟩
  have h2 : RespVal.arr [RespVal.reqEcho Verb.GET "/api" none none none]
      = RespVal.reqEcho Verb.GET "/api" none none none :=
    Except.ok.inj hcontra
  exact RespVal.noConfusion h2

/-- C2 (amended): every verb operation resolves with exactly the value
produced by the Transport Adapter for that call — the whole
ResponseTuple is passed through untouched, and the core consumes or adds
nothing. -/
theorem c2_response_passthrough {π ε : Type} (n : Node) (t : HttpClient π ε)
    (b : Obj) (q h : Option Obj) :
    (n.getAll t q h).2 = t.get n.basePath q h
    ∧ (n.get t q h).2 = t.get n.basePath q h
    ∧ (n.create t b q h).2 = t.post n.basePath b q h
    ∧ (n.update t b q h).2 = t.put n.basePath b q h
    ∧ (n.delete t q h).2 = t.delete n.basePath q h :=
  ⟨rfl, rfl, rfl, rfl, rfl⟩

/-- C3: selecting an instance with zero identifier components fails
synchronously as a usage error on every node at every path depth: the
result is the settled usage error, not a pending computation, and the
request trace is empty — no call into the Transport Adapter is made. -/
theorem c3_for_zero_identifiers (n : Node) :
    n.forIds [] = ([], Except.error UsageError.emptyIdentifier) := rfl

/-- C4: omitted trailing optional arguments normalize to the explicit
absent marker, observably distinct from an explicitly supplied empty
object; the normalizer accepts every shortened arity without
placeholders, and the maximum arity of the body-carrying verbs exceeds
that of the non-body verbs by exactly one. -/
theorem c4_parameter_normalization {π ε : Type} (n : Node) (t : HttpClient π ε)
    (q b : Obj) (args : List Obj) :
    (n.getAllArgs t []).map Prod.fst
      = some [{ verb := Verb.GET, path := n.basePath, body := none,
                query := none, headers := none }]
    ∧ (n.getAllArgs t [q]).map Prod.fst
      = some [{ verb := Verb.GET, path := n.basePath, body := none,
                query := some q, headers := none }]
    ∧ (n.createArgs t [b]).map Prod.fst
      = some [{ verb := Verb.POST, path := n.basePath, body := some b,
                query := none, headers := none }]
    ∧ (n.getAllArgs t []).map Prod.fst ≠ (n.getAllArgs t [emptyObj]).map Prod.fst
    ∧ ((n.getAllArgs t args).isSome ↔ args.length ≤ maxArityNoBody)
    ∧ ((n.getArgs t args).isSome ↔ args.length ≤ maxArityNoBody)
    ∧ ((n.deleteArgs t args).isSome ↔ args.length ≤ maxArityNoBody)
    ∧ ((n.createArgs t args).isSome ↔ 1 ≤ args.length ∧ args.length ≤ maxArityWithBody)
    ∧ ((n.updateArgs t args).isSome ↔ 1 ≤ args.length ∧ args.length ≤ maxArityWithBody)
    ∧ maxArityWithBody = maxArityNoBody + 1 := by
  refine ⟨rfl, rfl, rfl, ?_, ?_, ?_, ?_, ?_, ?_, rfl⟩
  · simp [Node.getAllArgs, Node.getAll, normalizeNoBody, emptyObj]
  · simp [Node.getAllArgs, normalizeNoBody_isSome]
  · simp [Node.getArgs, normalizeNoBody_isSome]
  · simp [Node.deleteArgs, normalizeNoBody_isSome]
  · simp [Node.createArgs, normalizeWithBody_isSome]
  · simp [Node.updateArgs, normalizeWithBody_isSome]

/-- C5: getAll and get issue a single GET at the basePath, create a
single POST carrying the supplied body, update a single PUT carrying the
supplied body, and delete a single DELETE — each operation issues
exactly one call, recorded in the singleton request trace, dispatched to
the Transport Adapter operation of exactly that verb. -/
theorem c5_verb_dispatch {π ε : Type} (n : Node) (t : HttpClient π ε)
    (b : Obj) (q h : Option Obj) :
    n.getAll t q h
      = ([{ verb := Verb.GET, path := n.basePath, body := none, query := q, headers := h }],
         t.get n.basePath q h)
    ∧ n.get t q h
      = ([{ verb := Verb.GET, path := n.basePath, body := none, query := q, headers := h }],
         t.get n.basePath q h)
    ∧ n.create t b q h
      = ([{ verb := Verb.POST, path := n.basePath, body := some b, query := q, headers := h }],
         t.post n.basePath b q h)
    ∧ n.update t b q h
      = ([{ verb := Verb.PUT, path := n.basePath, body := some b, query := q, headers := h }],
         t.put n.basePath b q h)
    ∧ n.delete t q h
      = ([{ verb := Verb.DELETE, path := n.basePath, body := none, query := q, headers := h }],
         t.delete n.basePath q h) :=
  ⟨rfl, rfl, rfl, rfl, rfl⟩

/-- C6: a composite identifier with at least one component is expanded
into consecutive path components in its given order: selecting it
extends the basePath by each component joined with a single slash, and
moves the node to Single mode, with no Transport Adapter call. -/
theorem c6_composite_identifier (n : Node) (ids : List String)
    (hne : ids ≠ [])
    (hb : n.basePath ≠ "") (hb2 : lastIsSlash n.basePath = false)
    (hc : ∀ c ∈ ids, c ≠ "" ∧ lastIsSlash c = false) :
    n.forIds ids
      = ([], Except.ok { basePath := slashJoin n.basePath ids, mode := Mode.single }) := by
  obtain ⟨c, cs, rfl⟩ := List.exists_cons_of_ne_nil hne
  dsimp only [Node.forIds]
  rw [(foldl_appendSeg (c :: cs) n.basePath hb hb2 hc).1]

/-- C6 witness: the composite identifier (a, b) selected under the
segment nest1 yields a path ending in nest1/a/b. -/
theorem c6_witness :
    (Node.mk "/api/nest1" Mode.collection).forIds ["a", "b"]
      = ([], Except.ok (Node.mk "/api/nest1/a/b" Mode.single)) := by
  have h := c6_composite_identifier (Node.mk "/api/nest1" Mode.collection) ["a", "b"]
    (by decide) (by decide) (by decide) (by decide)
  rw [show slashJoin (Node.mk "/api/nest1" Mode.collection).basePath ["a", "b"]
      = "/api/nest1/a/b" from by decide] at h
  exact h

/-- C7 counterexample: the claim quantifies over every accessed name
that is not a reserved operation name, but the engine must not treat
every such name as a child. At the protocol-reserved name then the
access behaves as no such property; at the empty name and at a basePath
with a trailing slash the produced basePath is not the plain
concatenation basePath + slash + name predicted by the claim. -/
theorem c7_counterexample :
    ("then" ∉ reservedNames Mode.collection
      ∧ ((rootNode "/api").resolve "then").2 = Lookup.notMember
      ∧ ∀ m : Node, ((rootNode "/api").resolve "then").2 ≠ Lookup.childNode m)
    ∧ ("" ∉ reservedNames Mode.collection ∧ "" ∉ protocolNames
      ∧ ((rootNode "/api").resolve "").2
          = Lookup.childNode { basePath := "/api", mode := Mode.collection }
      ∧ ((rootNode "/api").resolve "").2
          ≠ Lookup.childNode { basePath := "/api/", mode := Mode.collection })
    ∧ ("x" ∉ reservedNames Mode.collection ∧ "x" ∉ protocolNames
      ∧ ((Node.mk "/api/" Mode.collection).resolve "x").2
          = Lookup.childNode { basePath := "/api/x", mode := Mode.collection }
      ∧ ((Node.mk "/api/" Mode.collection).resolve "x").2
          ≠ Lookup.childNode { basePath := "/api//x", mode := Mode.collection }) := by
  refine ⟨⟨by decide, by decide, fun m => ?_⟩, by decide, by decide⟩
  intro hcontra
  have h2 : Lookup.notMember = Lookup.childNode m := by
    have he : ((rootNode "/api").resolve "then").2 = Lookup.notMember := by decide
    rw [← he]
    exact hcontra
  exact Lookup.noConfusion h2

/-- C7 (amended): for every node whose basePath is nonempty and has no
trailing slash, and every nonempty accessed name that is neither a
reserved operation name of the current mode nor a protocol-reserved
introspection name, the access resolves to a new Collection-mode node
whose basePath is the current basePath + slash + name, and the access
itself issues no Transport Adapter request. -/
theorem c7_dynamic_child_access (n : Node) (name : String)
    (hres : name ∉ reservedNames n.mode) (hprot : name ∉ protocolNames)
    (hb : n.basePath ≠ "") (hb2 : lastIsSlash n.basePath = false)
    (hn : name ≠ "") :
    n.resolve name
      = ([], Lookup.childNode { basePath := n.basePath ++ "/" ++ name,
                                mode := Mode.collection }) := by
  dsimp only [Node.resolve, Node.child]
  rw [if_neg hres, if_neg hprot, appendSeg_eq _ _ hb hb2 hn]

/-- C7 witness: accessing nest1 on the Single-mode node at /api/id-0
allocates the Collection-mode child at /api/id-0/nest1 with an empty
request trace. -/
theorem c7_witness :
    (Node.mk "/api/id-0" Mode.single).resolve "nest1"
      = ([], Lookup.childNode (Node.mk "/api/id-0/nest1" Mode.collection)) := by
  have h := c7_dynamic_child_access (Node.mk "/api/id-0" Mode.single) "nest1"
    (by decide) (by decide) (by decide) (by decide) (by decide)
  exact h.trans (by decide)

/-- C8: navigation never mutates the node it is invoked on — nodes are
pure values — and navigating to the same child name from two equal-path
nodes (whatever their provenance or mode) yields child nodes that are
equal, in particular with identical basePath, so every subsequent call
through the one behaves exactly as through the other. -/
theorem c8_no_shared_mutable_state (n₁ n₂ : Node) (name : String)
    (hpath : n₁.basePath = n₂.basePath) :
    n₁.child name = n₂.child name
    ∧ (n₁.child name).basePath = (n₂.child name).basePath
    ∧ ∀ (π ε : Type) (t : HttpClient π ε) (q h : Option Obj),
        (n₁.child name).getAll t q h = (n₂.child name).getAll t q h := by
  have h1 : n₁.child name = n₂.child name := by
    dsimp only [Node.child]
    rw [hpath]
  exact ⟨h1, by rw [h1], fun π ε t q h => by rw [h1]⟩

/-- C8 witness: two equal-path nodes of different modes navigate to the
same child node. -/
theorem c8_witness :
    (Node.mk "/api" Mode.collection).child "nest1"
      = (Node.mk "/api" Mode.single).child "nest1" :=
  (c8_no_shared_mutable_state (Node.mk "/api" Mode.collection)
    (Node.mk "/api" Mode.single) "nest1" rfl).1

/-- C9: when the Transport Adapter rejects a verb call, the operation
rejects with exactly the value the adapter produced — no wrapping or
suppression — and the request trace stays a singleton: no second request
is issued. -/
theorem c9_rejection_passthrough {π ε : Type} (n : Node) (t : HttpClient π ε)
    (b : Obj) (q h : Option Obj) (e : ε)
    (hg : t.get n.basePath q h = Except.error e)
    (hp : t.post n.basePath b q h = Except.error e)
    (hu : t.put n.basePath b q h = Except.error e)
    (hd : t.delete n.basePath q h = Except.error e) :
    ((n.getAll t q h).2 = Except.error e ∧ (n.getAll t q h).1.length = 1)
    ∧ ((n.get t q h).2 = Except.error e ∧ (n.get t q h).1.length = 1)
    ∧ ((n.create t b q h).2 = Except.error e ∧ (n.create t b q h).1.length = 1)
    ∧ ((n.update t b q h).2 = Except.error e ∧ (n.update t b q h).1.length = 1)
    ∧ ((n.delete t q h).2 = Except.error e ∧ (n.delete t q h).1.length = 1) :=
  ⟨⟨hg, rfl⟩, ⟨hg, rfl⟩, ⟨hp, rfl⟩, ⟨hu, rfl⟩, ⟨hd, rfl⟩⟩

/-- C9 witness: with an always-rejecting adapter at root /api, every
verb rejects with exactly the adapter value 7 after a single request. -/
theorem c9_witness :
    (((rootNode "/api").getAll (errClient 7) none none).2 = Except.error 7
      ∧ ((rootNode "/api").getAll (errClient 7) none none).1.length = 1)
    ∧ (((rootNode "/api").get (errClient 7) none none).2 = Except.error 7
      ∧ ((rootNode "/api").get (errClient 7) none none).1.length = 1)
    ∧ (((rootNode "/api").create (errClient 7) emptyObj none none).2 = Except.error 7
      ∧ ((rootNode "/api").create (errClient 7) emptyObj none none).1.length = 1)
    ∧ (((rootNode "/api").update (errClient 7) emptyObj none none).2 = Except.error 7
      ∧ ((rootNode "/api").update (errClient 7) emptyObj none none).1.length = 1)
    ∧ (((rootNode "/api").delete (errClient 7) none none).2 = Except.error 7
      ∧ ((rootNode "/api").delete (errClient 7) none none).1.length = 1) :=
  c9_rejection_passthrough (rootNode "/api") (errClient 7) emptyObj none none 7
    rfl rfl rfl rfl

/-- C10: at the typed interface, a sub-entity accessor name that is not
itself a general operation name and not the name for appears among the
keys of the value returned by for, and never among the keys of the
EntityApi type itself; the EntityApi type exposes only general entity
operations plus for. -/
theorem c10_subentities_only_behind_for (selectedKeys subEntityKeys : List String)
    (name : String)
    (hsub : name ∈ subEntityKeys) (hgen : name ∉ generalEntityApiKeys)
    (hfor : name ≠ "for") :
    name ∈ forReturnKeys selectedKeys subEntityKeys
    ∧ name ∉ entityApiKeys selectedKeys
    ∧ ∀ k ∈ entityApiKeys selectedKeys, k ∈ generalEntityApiKeys ∨ k = "for" := by
  refine ⟨List.mem_append_right _ hsub, ?_, ?_⟩
  · intro hmem
    rcases List.mem_append.mp hmem with hL | hR
    · exact hgen (of_decide_eq_true (List.mem_filter.mp hL).2)
    · exact hfor (List.mem_singleton.mp hR)
  · intro k hk
    rcases List.mem_append.mp hk with hL | hR
    · exact Or.inl (of_decide_eq_true (List.mem_filter.mp hL).2)
    · exact Or.inr (List.mem_singleton.mp hR)

/-- C10 witness: with the full operation selection and the sub-entity
nest1, the accessor nest1 is visible only behind for. -/
theorem c10_witness :
    "nest1" ∈ forReturnKeys allEntityApiKeys ["nest1"]
    ∧ "nest1" ∉ entityApiKeys allEntityApiKeys
    ∧ ∀ k ∈ entityApiKeys allEntityApiKeys, k ∈ generalEntityApiKeys ∨ k = "for" :=
  c10_subentities_only_behind_for allEntityApiKeys ["nest1"] "nest1"
    (by decide) (by decide) (by decide)

end RestClient
